import Mathlib

/-!
Verification of the Fashion MNIST data-engineering repository.

The repository consists of two notebooks and a Dockerfile.  The first
notebook ingests the raw Fashion MNIST dataset, saves it as a compressed
multi-array archive plus a Vertex-AI image/CSV layout (the function
`create_vertex_dataset_format` below is embedded from that notebook).
The second notebook drives a normalization pipeline whose core module
(`main.py`) is fetched from cloud storage at run time and is therefore
not part of the repository; the pipeline components are modelled from
the specification, checked against the call site (`run.py`) and the
recorded run output that the repository does contain.
-/

set_option linter.unusedVariables false

namespace FashionMNIST

/-- Array element dtypes occurring in the pipeline. -/
inductive DType
  | uint8
  | float32
deriving DecidableEq, Repr, Inhabited

/-- An n-dimensional numeric array: a shape, a dtype tag and the flat list
of element values.  Values are modelled as exact rationals; a uint8 array
holds integers in [0,255], a float32 array holds the exact quotients
produced by the normalization (each representable exactly is irrelevant
here because the scale factor 255 divides out exactly on the inputs the
pipeline sees). -/
structure NDArray where
  shape : List Nat
  dtype : DType
  values : List ℚ
deriving DecidableEq, Repr, Inhabited

/-- A Dataset: a mapping from split-qualified array name to array,
in archive entry order. -/
abbrev Dataset := List (String × NDArray)

/-- Modelled from the spec: the image-array key patterns default to any
key beginning with X_ (section 4.1 of the spec; the recorded log shows
X_train and X_test normalized, y_train and y_test kept unchanged). -/
def isImageKey (k : String) : Bool := k.data.take 2 = ['X', '_']

/-- Modelled from the spec: normalization of one image array (main.py is
absent from the repository) — cast to float32 and divide by 255.0,
keeping the shape. -/
def normalize_array (a : NDArray) : NDArray :=
  { shape := a.shape, dtype := DType.float32, values := a.values.map (fun v => v / 255) }

/-- Modelled from the spec: normalize_dataset maps over the dataset,
normalizing every array whose key matches an image-array pattern and
passing every other entry through unchanged. -/
def normalize_dataset (d : Dataset) : Dataset :=
  d.map (fun kv => if isImageKey kv.1 then (kv.1, normalize_array kv.2) else kv)

theorem normalize_dataset_length (d : Dataset) :
    (normalize_dataset d).length = d.length := by
  simp [normalize_dataset]

theorem normalize_dataset_keys (d : Dataset) :
    (normalize_dataset d).map Prod.fst = d.map Prod.fst := by
  simp only [normalize_dataset, List.map_map]
  refine List.map_congr_left ?_
  intro kv _
  by_cases h : isImageKey kv.1 <;> simp [h]

theorem normalize_dataset_shapes (d : Dataset) :
    (normalize_dataset d).map (fun kv => kv.2.shape) = d.map (fun kv => kv.2.shape) := by
  simp only [normalize_dataset, List.map_map]
  refine List.map_congr_left ?_
  intro kv _
  by_cases h : isImageKey kv.1 <;> simp [h, normalize_array]

/-- C1: for every image array of dtype uint8 with all values in [0,255],
the normalized array has dtype float32 with all values in [0,1], and
multiplying the normalized values by 255 recovers the original values
exactly (hence within any floating-point tolerance). -/
theorem C1_normalize_uint8 (a : NDArray) (h8 : a.dtype = DType.uint8)
    (hrange : ∀ v ∈ a.values, 0 ≤ v ∧ v ≤ 255) :
    (normalize_array a).dtype = DType.float32 ∧
    (∀ w ∈ (normalize_array a).values, 0 ≤ w ∧ w ≤ 1) ∧
    (normalize_array a).values.map (fun w => w * 255) = a.values := by
  refine ⟨rfl, ?_, ?_⟩
  · intro w hw
    simp only [normalize_array, List.mem_map] at hw
    obtain ⟨v, hv, rfl⟩ := hw
    obtain ⟨h0, h255⟩ := hrange v hv
    constructor
    · positivity
    · rw [div_le_one (by norm_num)]
      exact h255
  · simp only [normalize_array, List.map_map]
    have : ∀ v ∈ a.values, (fun w => w * 255) (v / 255) = v := by
      intro v _
      simp only []
      field_simp
    calc a.values.map ((fun w => w * 255) ∘ (fun v => v / 255))
        = a.values.map id := List.map_congr_left (by intro v hv; simp [this v hv])
      _ = a.values := List.map_id a.values

/-- A concrete uint8 image array used to witness the normalization claims. -/
def sampleImage : NDArray := ⟨[2, 2], DType.uint8, [0, 1, 128, 255]⟩

theorem C1_normalize_uint8_witness :
    (sampleImage.dtype = DType.uint8 ∧ ∀ v ∈ sampleImage.values, 0 ≤ v ∧ v ≤ 255) ∧
    ((normalize_array sampleImage).dtype = DType.float32 ∧
     (∀ w ∈ (normalize_array sampleImage).values, 0 ≤ w ∧ w ≤ 1) ∧
     (normalize_array sampleImage).values.map (fun w => w * 255) = sampleImage.values) :=
  ⟨⟨rfl, by norm_num [sampleImage]⟩,
   C1_normalize_uint8 sampleImage rfl (by norm_num [sampleImage])⟩

theorem normalize_getD_of_label (d : Dataset) (i : Nat)
    (hlab : isImageKey (d.getD i default).1 = false) :
    (normalize_dataset d).getD i default = d.getD i default := by
  rcases h : d[i]? with _ | kv
  · simp [normalize_dataset, List.getD_eq_getElem?_getD, List.getElem?_map, h]
  · have hkv : d.getD i default = kv := by
      simp [List.getD_eq_getElem?_getD, h]
    rw [hkv] at hlab
    simp [normalize_dataset, List.getD_eq_getElem?_getD, List.getElem?_map, h, hlab]

/-- C3: every entry of the dataset whose key does not match an image-array
pattern is bit-for-bit identical before and after normalization, and
normalization neither adds nor removes entries. -/
theorem C3_labels_unchanged (d : Dataset) (i : Nat)
    (hlab : isImageKey (d.getD i default).1 = false) :
    (normalize_dataset d).getD i default = d.getD i default ∧
    (normalize_dataset d).length = d.length :=
  ⟨normalize_getD_of_label d i hlab, normalize_dataset_length d⟩

/-- A concrete dataset used to witness the pipeline claims: the four keys
of the Fashion MNIST archive, with a small image and label array each. -/
def sampleDataset : Dataset :=
  [("X_train", ⟨[2, 2], DType.uint8, [0, 1, 128, 255]⟩),
   ("y_train", ⟨[2], DType.uint8, [3, 9]⟩),
   ("X_test", ⟨[1, 2], DType.uint8, [17, 42]⟩),
   ("y_test", ⟨[1], DType.uint8, [5]⟩)]

theorem C3_labels_unchanged_witness :
    isImageKey (sampleDataset.getD 1 default).1 = false ∧
    ((normalize_dataset sampleDataset).getD 1 default = sampleDataset.getD 1 default ∧
     (normalize_dataset sampleDataset).length = sampleDataset.length) :=
  ⟨by decide, C3_labels_unchanged sampleDataset 1 (by decide)⟩

theorem mk_data (s : String) : String.mk s.data = s := by
  cases s
  rfl

theorem takeWhile_all_append_cons {α : Type} {p : α → Bool} (l₁ : List α)
    (h : ∀ x ∈ l₁, p x = true) (x : α) (hx : p x = false) (l₂ : List α) :
    (l₁ ++ x :: l₂).takeWhile p = l₁ := by
  induction l₁ with
  | nil => simp [List.takeWhile_cons, hx]
  | cons a t ih =>
      have ha : p a = true := h a (by simp)
      have ht : ∀ y ∈ t, p y = true := fun y hy => h y (by simp [hy])
      simp [List.takeWhile_cons, ha, ih ht]

/-- Modelled from the spec: splits a string at the last occurrence of the
character c, returning the part before and the part after; none when c
does not occur in the string. -/
def splitLast (c : Char) (s : String) : Option (String × String) :=
  let r := s.data.reverse.takeWhile (fun x => decide (x ≠ c))
  if r.length = s.data.length then none
  else some (String.mk (s.data.take (s.data.length - r.length - 1)), String.mk r.reverse)

theorem splitLast_append (c : Char) (a b : String) (hb : c ∉ b.data) :
    splitLast c (a ++ String.mk [c] ++ b) = some (a, b) := by
  have hdata : (a ++ String.mk [c] ++ b).data = a.data ++ c :: b.data := by
    simp [String.data_append]
  have hrev : (a.data ++ c :: b.data).reverse = b.data.reverse ++ c :: a.data.reverse := by
    simp
  have htw : (b.data.reverse ++ c :: a.data.reverse).takeWhile (fun x => decide (x ≠ c))
      = b.data.reverse := by
    refine takeWhile_all_append_cons _ ?_ c (by simp) _
    intro x hx
    simp only [List.mem_reverse] at hx
    simp only [decide_eq_true_eq]
    intro hxc
    exact hb (hxc ▸ hx)
  have hlen : (a.data ++ c :: b.data).length = a.data.length + 1 + b.data.length := by
    simp
    omega
  simp only [splitLast, hdata, hrev, htw]
  rw [if_neg (by simp only [List.length_reverse, hlen]; omega)]
  have htake : (a.data ++ c :: b.data).take
      ((a.data ++ c :: b.data).length - b.data.reverse.length - 1) = a.data := by
    rw [hlen]
    simp only [List.length_reverse]
    have : a.data.length + 1 + b.data.length - b.data.length - 1 = a.data.length := by omega
    rw [this]
    exact List.take_left a.data (c :: b.data)
  rw [htake]
  simp [mk_data]

/-- Modelled from the spec: the normalized filename is derived by
inserting the marker _normalized immediately before the file extension
(main.py is absent from the repository; the recorded log shows
fashion_mnist.npz mapped to fashion_mnist_normalized.npz). -/
def insert_before_ext (filename : String) : String :=
  match splitLast '.' filename with
  | some (stem, ext) => stem ++ "_normalized." ++ ext
  | none => filename ++ "_normalized"

/-- Modelled from the spec: the output directory is derived by appending
the fixed suffix _normalized to the input path up to and including its
parent segment, and the output file is the normalized filename inside
that directory (spec section 4.4; the recorded run maps
custom_jobs/fashion_mnist.npz to
custom_jobs_normalized/fashion_mnist_normalized.npz). -/
def derive_output_path (input_path : String) : Option (String × String) :=
  match splitLast '/' input_path with
  | some (parent, filename) => some (parent ++ "_normalized", insert_before_ext filename)
  | none => none

/-- C5: for every input path of the form parent/stem.ext (the filename
containing no slash and the extension no dot), the derived output
directory is the parent with _normalized appended, and the derived
filename is the stem with _normalized inserted before the extension. -/
theorem C5_output_path_derivation (parent stem ext : String)
    (hslash : '/' ∉ (stem ++ "." ++ ext).data)
    (hdot : '.' ∉ ext.data) :
    derive_output_path (parent ++ "/" ++ (stem ++ "." ++ ext)) =
      some (parent ++ "_normalized", stem ++ "_normalized." ++ ext) := by
  have h1 : ("/" : String) = String.mk ['/'] := rfl
  have h2 : ("." : String) = String.mk ['.'] := rfl
  unfold derive_output_path
  rw [h1, splitLast_append '/' parent (stem ++ "." ++ ext) hslash]
  dsimp only
  unfold insert_before_ext
  rw [h2, splitLast_append '.' stem ext hdot]

theorem C5_output_path_derivation_witness :
    ('/' ∉ ("fashion_mnist" ++ "." ++ "npz" : String).data ∧ '.' ∉ ("npz" : String).data) ∧
    derive_output_path ("custom_jobs" ++ "/" ++ ("fashion_mnist" ++ "." ++ "npz")) =
      some ("custom_jobs" ++ "_normalized", "fashion_mnist" ++ "_normalized." ++ "npz") :=
  ⟨⟨by decide, by decide⟩,
   C5_output_path_derivation "custom_jobs" "fashion_mnist" "npz" (by decide) (by decide)⟩

/-- The linear pipeline steps, in the order of the state machine
start, downloaded, loaded, normalized, saved, uploaded, documented, done
(spec section 4.4). -/
inductive Step
  | download
  | load
  | normalize
  | save
  | upload
  | document
deriving DecidableEq, Repr

/-- The canonical order of the pipeline transitions. -/
def pipelineOrder : List Step :=
  [Step.download, Step.load, Step.normalize, Step.save, Step.upload, Step.document]

/-- Error kinds of spec section 7. -/
inductive PipelineError
  | inputNotFound
  | corruptArchive
  | saveFailed
  | uploadFailed
  | docFailed
deriving DecidableEq, Repr

/-- Modelled from the spec: the environment of one pipeline run — the
remote input object (none when the object does not exist), whether the
archive is loadable, whether the local save and the remote uploads
succeed, the optional class-name manifest at the input location, and the
wall-clock timestamp of the run (main.py is absent from the repository). -/
structure Env where
  input : Option Dataset
  loadable : Bool
  save_ok : Bool
  upload_ok : Bool
  doc_ok : Bool
  class_manifest : Option String
  timestamp : String

/-- Whether a given step succeeds in a given environment. -/
def stepOk (env : Env) : Step → Bool
  | Step.download => env.input.isSome
  | Step.load => env.loadable
  | Step.normalize => true
  | Step.save => env.save_ok
  | Step.upload => env.upload_ok
  | Step.document => env.doc_ok

/-- The error kind reported when a given step fails. -/
def stepError : Step → PipelineError
  | Step.download => PipelineError.inputNotFound
  | Step.load => PipelineError.corruptArchive
  | Step.normalize => PipelineError.corruptArchive
  | Step.save => PipelineError.saveFailed
  | Step.upload => PipelineError.uploadFailed
  | Step.document => PipelineError.docFailed

/-- Modelled from the spec: the orchestrator attempts the steps strictly
in order, halting at the first failure; returns the attempted steps and
the failing step, if any. -/
def runSteps (env : Env) : List Step → List Step × Option Step
  | [] => ([], none)
  | s :: rest =>
      if stepOk env s then
        let t := runSteps env rest
        (s :: t.1, t.2)
      else ([s], some s)

/-- Contents of a remote object written by the pipeline. -/
inductive Blob
  | archive (d : Dataset)
  | text (s : String)
deriving DecidableEq, Repr

/-- The pipeline result record; its field names are those of the result
JSON recorded in the repository (run output of run.py). -/
structure PipelineResult where
  status : String
  input_path : String
  output_path : String
  normalized_file : String
  timestamp : String
deriving DecidableEq, Repr

/-- The observable outcome of one pipeline run: the attempted steps, the
failing step and its error kind if any, the remote objects uploaded (none
are ever deleted or rolled back), and the result record. -/
structure Outcome where
  attempted : List Step
  failed : Option Step
  err : Option PipelineError
  uploaded : List (String × Blob)
  result : PipelineResult

/-- Modelled from the spec: the generated README describes the
normalization method, the scale factor and the timestamp. -/
def readme_text (ts : String) : String :=
  "Min-Max [0,1] normalization: images cast to float32 and scaled by 255.0. Generated: " ++ ts

/-- The final path segment of a remote path. -/
def basename (p : String) : String :=
  match splitLast '/' p with
  | some (_, f) => f
  | none => p

/-- Remote path of the normalized archive: the output location followed
by the normalized filename derived from the input filename. -/
def normalized_remote_file (input_path output_path : String) : String :=
  output_path ++ insert_before_ext (basename input_path)

/-- Modelled from the spec: the pipeline orchestrator
normalize_fashion_mnist (main.py is absent from the repository) —
download, load, normalize, save, upload, then copy the optional
class-name manifest and write the generated README, halting at the first
failing step and reporting a structured result. -/
def normalize_fashion_mnist (env : Env) (input_path output_path : String) : Outcome :=
  let run := runSteps env pipelineOrder
  let normFile := normalized_remote_file input_path output_path
  let uploadedArchive : List (String × Blob) :=
    match env.input with
    | some raw =>
        if env.loadable && env.save_ok && env.upload_ok then
          [(normFile, Blob.archive (normalize_dataset raw))]
        else []
    | none => []
  let uploadedDocs : List (String × Blob) :=
    if run.2 = none then
      (match env.class_manifest with
       | some m => [(output_path ++ "class_names.json", Blob.text m)]
       | none => []) ++
      [(output_path ++ "README.md", Blob.text (readme_text env.timestamp))]
    else []
  { attempted := run.1
    failed := run.2
    err := run.2.map stepError
    uploaded := uploadedArchive ++ uploadedDocs
    result :=
      { status := if run.2 = none then "success" else "error"
        input_path := input_path
        output_path := output_path
        normalized_file := normFile
        timestamp := env.timestamp } }

theorem nfm_attempted (env : Env) (ip op : String) :
    (normalize_fashion_mnist env ip op).attempted = (runSteps env pipelineOrder).1 := rfl

theorem nfm_failed (env : Env) (ip op : String) :
    (normalize_fashion_mnist env ip op).failed = (runSteps env pipelineOrder).2 := rfl

theorem nfm_err (env : Env) (ip op : String) :
    (normalize_fashion_mnist env ip op).err
      = ((runSteps env pipelineOrder).2).map stepError := rfl

theorem nfm_status (env : Env) (ip op : String) :
    (normalize_fashion_mnist env ip op).result.status
      = if (runSteps env pipelineOrder).2 = none then "success" else "error" := rfl

theorem nfm_uploaded (env : Env) (ip op : String) :
    (normalize_fashion_mnist env ip op).uploaded
      = (match env.input with
         | some raw =>
             if env.loadable && env.save_ok && env.upload_ok then
               [(normalized_remote_file ip op, Blob.archive (normalize_dataset raw))]
             else []
         | none => []) ++
        (if (runSteps env pipelineOrder).2 = none then
          (match env.class_manifest with
           | some m => [(op ++ "class_names.json", Blob.text m)]
           | none => []) ++
          [(op ++ "README.md", Blob.text (readme_text env.timestamp))]
         else []) := rfl

theorem runSteps_front (env : Env) (l : List Step) :
    ∃ t, (runSteps env l).1 ++ t = l := by
  induction l with
  | nil => exact ⟨[], rfl⟩
  | cons s rest ih =>
      by_cases h : stepOk env s = true
      · obtain ⟨t, ht⟩ := ih
        exact ⟨t, by simp [runSteps, h, ht]⟩
      · exact ⟨rest, by simp [runSteps, h]⟩

theorem runSteps_nodup (env : Env) (l : List Step) (h : l.Nodup) :
    (runSteps env l).1.Nodup := by
  obtain ⟨t, ht⟩ := runSteps_front env l
  have hsub : List.Sublist (runSteps env l).1 l := by
    have h2 := List.sublist_append_left (runSteps env l).1 t
    rwa [ht] at h2
  exact h.sublist hsub

theorem runSteps_none (env : Env) (l : List Step) (h : (runSteps env l).2 = none) :
    (runSteps env l).1 = l := by
  induction l with
  | nil => rfl
  | cons s rest ih =>
      by_cases hs : stepOk env s = true
      · simp only [runSteps, hs, if_true] at h ⊢
        rw [ih h]
      · simp [runSteps, hs] at h

theorem runSteps_some (env : Env) (l : List Step) (s : Step)
    (h : (runSteps env l).2 = some s) :
    stepOk env s = false ∧ (runSteps env l).1.getLast? = some s := by
  induction l with
  | nil => simp [runSteps] at h
  | cons a rest ih =>
      by_cases ha : stepOk env a = true
      · simp only [runSteps, ha, if_true] at h ⊢
        obtain ⟨h1, h2⟩ := ih h
        refine ⟨h1, ?_⟩
        rcases hr : (runSteps env rest).1 with _ | ⟨x, xs⟩
        · rw [hr] at h2
          simp at h2
        · rw [hr] at h2
          rw [List.getLast?_cons_cons]
          exact h2
      · simp only [runSteps, ha, if_false, Bool.false_eq_true] at h ⊢
        simp only [Option.some.injEq] at h
        subst h
        refine ⟨by simpa using ha, rfl⟩

theorem runSteps_all_ok (env : Env) (l : List Step)
    (h : ∀ s ∈ l, stepOk env s = true) :
    runSteps env l = (l, none) := by
  induction l with
  | nil => rfl
  | cons a rest ih =>
      have ha : stepOk env a = true := h a (by simp)
      have hrest := ih (fun s hs => h s (by simp [hs]))
      simp [runSteps, ha, hrest]

theorem string_append_ne (a b c : String) (h : b ≠ c) : a ++ b ≠ a ++ c := by
  intro hab
  apply h
  apply String.ext
  have hd := congrArg String.data hab
  simp only [String.data_append] at hd
  exact List.append_cancel_left hd

/-- A concrete fully healthy environment used to witness the pipeline
claims. -/
def sampleEnv : Env :=
  { input := some sampleDataset
    loadable := true
    save_ok := true
    upload_ok := true
    doc_ok := true
    class_manifest := some "class names manifest"
    timestamp := "2025-04-28T19:17:23" }

/-- The same environment without a class-name manifest at the input
location. -/
def sampleEnvNoManifest : Env := { sampleEnv with class_manifest := none }

/-- The same environment observed at a later wall-clock time and without
a manifest, used to witness determinism. -/
def sampleEnvLater : Env :=
  { sampleEnv with timestamp := "2025-04-29T08:00:00", class_manifest := none }

/-- C4: every pipeline run attempts its steps in the strictly linear
order download, load, normalize, save, upload, document, each at most
once and never reordered; when no step fails the run attempts all of
them and reports status success; when a step fails the run halts at that
step (it is the last attempted one), reports status error, and prior
uploads are not rolled back (the normalized archive stays uploaded once
the upload step succeeded). -/
theorem C4_linear_pipeline (env : Env) (ip op : String) :
    (∃ t, (normalize_fashion_mnist env ip op).attempted ++ t = pipelineOrder) ∧
    (normalize_fashion_mnist env ip op).attempted.Nodup ∧
    ((normalize_fashion_mnist env ip op).failed = none →
      (normalize_fashion_mnist env ip op).result.status = "success" ∧
      (normalize_fashion_mnist env ip op).attempted = pipelineOrder) ∧
    (∀ s, (normalize_fashion_mnist env ip op).failed = some s →
      (normalize_fashion_mnist env ip op).result.status = "error" ∧
      stepOk env s = false ∧
      (normalize_fashion_mnist env ip op).attempted.getLast? = some s) ∧
    (env.input.isSome = true → env.loadable = true → env.save_ok = true →
      env.upload_ok = true →
      ∃ a, (normalized_remote_file ip op, Blob.archive a)
        ∈ (normalize_fashion_mnist env ip op).uploaded) := by
  refine ⟨?_, ?_, ?_, ?_, ?_⟩
  · rw [nfm_attempted]
    exact runSteps_front env pipelineOrder
  · rw [nfm_attempted]
    exact runSteps_nodup env pipelineOrder (by decide)
  · intro h
    rw [nfm_failed] at h
    rw [nfm_status, nfm_attempted]
    exact ⟨by simp [h], runSteps_none env _ h⟩
  · intro s h
    rw [nfm_failed] at h
    obtain ⟨h1, h2⟩ := runSteps_some env _ s h
    rw [nfm_status, nfm_attempted]
    exact ⟨by simp [h], h1, h2⟩
  · intro h1 h2 h3 h4
    rcases hin : env.input with _ | raw
    · rw [hin] at h1
      simp at h1
    · refine ⟨normalize_dataset raw, ?_⟩
      rw [nfm_uploaded, hin, h2, h3, h4]
      simp

theorem C4_linear_pipeline_witness :
    (normalize_fashion_mnist sampleEnv "gs://b/raw/data.npz" "gs://b/raw_normalized/").result.status
      = "success" ∧
    (normalize_fashion_mnist sampleEnv "gs://b/raw/data.npz" "gs://b/raw_normalized/").attempted
      = pipelineOrder := by
  have h := C4_linear_pipeline sampleEnv "gs://b/raw/data.npz" "gs://b/raw_normalized/"
  have hn : (normalize_fashion_mnist sampleEnv "gs://b/raw/data.npz" "gs://b/raw_normalized/").failed
      = none := by decide
  exact h.2.2.1 hn

/-- C6: a run whose remote input object does not exist returns a result
with status error carrying an InputNotFound-class error, uploads nothing
to the output location, and yields a well-defined structured outcome
rather than an uncaught exception (the orchestrator is a total
function). -/
theorem C6_input_not_found (env : Env) (ip op : String) (h : env.input = none) :
    (normalize_fashion_mnist env ip op).result.status = "error" ∧
    (normalize_fashion_mnist env ip op).err = some PipelineError.inputNotFound ∧
    (normalize_fashion_mnist env ip op).uploaded = [] := by
  have hd : stepOk env Step.download = false := by simp [stepOk, h]
  have hrun : runSteps env pipelineOrder = ([Step.download], some Step.download) := by
    simp [pipelineOrder, runSteps, hd]
  refine ⟨?_, ?_, ?_⟩
  · rw [nfm_status, hrun]
    simp
  · rw [nfm_err, hrun]
    rfl
  · rw [nfm_uploaded, h, hrun]
    simp

/-- An environment whose remote input object is missing. -/
def missingInputEnv : Env :=
  { input := none
    loadable := true
    save_ok := true
    upload_ok := true
    doc_ok := true
    class_manifest := none
    timestamp := "2025-04-28T19:17:23" }

theorem C6_input_not_found_witness :
    missingInputEnv.input = none ∧
    ((normalize_fashion_mnist missingInputEnv "gs://b/raw/f.npz" "gs://b/out/").result.status
        = "error" ∧
     (normalize_fashion_mnist missingInputEnv "gs://b/raw/f.npz" "gs://b/out/").err
        = some PipelineError.inputNotFound ∧
     (normalize_fashion_mnist missingInputEnv "gs://b/raw/f.npz" "gs://b/out/").uploaded = []) :=
  ⟨rfl, C6_input_not_found missingInputEnv "gs://b/raw/f.npz" "gs://b/out/" rfl⟩

/-- C7: when every step succeeds, a run without a class-name manifest at
the input location still completes with status success and uploads no
class-name file to the output location, while a run with a manifest
copies it to the output location unchanged.  (The hypothesis hne records
that the normalized archive file is not itself named class_names.json.) -/
theorem C7_class_manifest (env : Env) (ip op : String) (d : Dataset)
    (hin : env.input = some d) (hld : env.loadable = true) (hsv : env.save_ok = true)
    (hup : env.upload_ok = true) (hdc : env.doc_ok = true)
    (hne : normalized_remote_file ip op ≠ op ++ "class_names.json") :
    (normalize_fashion_mnist env ip op).result.status = "success" ∧
    (env.class_manifest = none →
      (op ++ "class_names.json")
        ∉ ((normalize_fashion_mnist env ip op).uploaded.map Prod.fst)) ∧
    (∀ m, env.class_manifest = some m →
      (op ++ "class_names.json", Blob.text m) ∈ (normalize_fashion_mnist env ip op).uploaded) := by
  have hall : ∀ s ∈ pipelineOrder, stepOk env s = true := by
    intro s hs
    cases s <;> simp [stepOk, hin, hld, hsv, hup, hdc]
  have hrun := runSteps_all_ok env pipelineOrder hall
  refine ⟨?_, ?_, ?_⟩
  · rw [nfm_status, hrun]
    simp
  · intro hm hmem
    rw [nfm_uploaded, hin, hld, hsv, hup, hrun, hm] at hmem
    simp only [Bool.and_self, if_true, List.nil_append, List.map_append, List.map_cons,
      List.map_nil, List.mem_append, List.mem_cons, List.not_mem_nil, or_false] at hmem
    rcases hmem with hmem | hmem
    · exact hne hmem.symm
    · exact string_append_ne op "README.md" "class_names.json" (by decide) hmem.symm
  · intro m hm
    rw [nfm_uploaded, hin, hld, hsv, hup, hrun, hm]
    simp

theorem C7_class_manifest_witness :
    ((normalize_fashion_mnist sampleEnvNoManifest "gs://b/custom_jobs/fashion_mnist.npz"
        "gs://b/custom_jobs_normalized/").result.status = "success" ∧
     ("gs://b/custom_jobs_normalized/" ++ "class_names.json")
        ∉ ((normalize_fashion_mnist sampleEnvNoManifest "gs://b/custom_jobs/fashion_mnist.npz"
            "gs://b/custom_jobs_normalized/").uploaded.map Prod.fst)) := by
  have h := C7_class_manifest sampleEnvNoManifest "gs://b/custom_jobs/fashion_mnist.npz"
    "gs://b/custom_jobs_normalized/" sampleDataset rfl rfl rfl rfl rfl (by decide)
  exact ⟨h.1, h.2.1 rfl⟩

/-- The uploads of a run that carry an archive (as opposed to text
documents): the byte content of the normalized dataset files written. -/
def archive_uploads (o : Outcome) : List (String × Blob) :=
  o.uploaded.filter (fun pb =>
    match pb.2 with
    | Blob.archive _ => true
    | Blob.text _ => false)

/-- C9: the normalized archive written by a successful run is a function
of the input dataset alone — two runs on the same input, at different
wall-clock times, with or without a manifest, and regardless of the
documentation step, write byte-identical normalized output files. -/
theorem C9_determinism (env1 env2 : Env) (ip op : String) (d : Dataset)
    (h1 : env1.input = some d) (h2 : env2.input = some d)
    (hld1 : env1.loadable = true) (hsv1 : env1.save_ok = true) (hup1 : env1.upload_ok = true)
    (hld2 : env2.loadable = true) (hsv2 : env2.save_ok = true) (hup2 : env2.upload_ok = true) :
    archive_uploads (normalize_fashion_mnist env1 ip op)
      = archive_uploads (normalize_fashion_mnist env2 ip op) := by
  have key : ∀ env : Env, env.input = some d → env.loadable = true → env.save_ok = true →
      env.upload_ok = true →
      archive_uploads (normalize_fashion_mnist env ip op)
        = [(normalized_remote_file ip op, Blob.archive (normalize_dataset d))] := by
    intro env hin hld hsv hup
    unfold archive_uploads
    rw [nfm_uploaded, hin, hld, hsv, hup]
    rcases hr : (runSteps env pipelineOrder).2 with _ | s
    · rcases hm : env.class_manifest with _ | m <;> simp [hr, hm, List.filter]
    · simp [hr, List.filter]
  rw [key env1 h1 hld1 hsv1 hup1, key env2 h2 hld2 hsv2 hup2]

theorem C9_determinism_witness :
    archive_uploads (normalize_fashion_mnist sampleEnv "gs://b/raw/f.npz" "gs://b/raw_normalized/")
      = archive_uploads
          (normalize_fashion_mnist sampleEnvLater "gs://b/raw/f.npz" "gs://b/raw_normalized/") :=
  C9_determinism sampleEnv sampleEnvLater "gs://b/raw/f.npz" "gs://b/raw_normalized/"
    sampleDataset rfl rfl rfl rfl rfl rfl rfl rfl

/-- C2: a full successful run on a dataset with keys X_train, y_train,
X_test, y_test uploads a normalized archive with exactly those four keys
in order, every shape unchanged, and a changed dtype only on entries
whose key matches an image-array pattern. -/
theorem C2_full_run_archive (env : Env) (ip op : String) (d : Dataset)
    (hin : env.input = some d)
    (hkeys : d.map Prod.fst = ["X_train", "y_train", "X_test", "y_test"])
    (hld : env.loadable = true) (hsv : env.save_ok = true) (hup : env.upload_ok = true) :
    ∃ a : Dataset,
      (normalized_remote_file ip op, Blob.archive a)
        ∈ (normalize_fashion_mnist env ip op).uploaded ∧
      a.map Prod.fst = ["X_train", "y_train", "X_test", "y_test"] ∧
      a.map (fun kv => kv.2.shape) = d.map (fun kv => kv.2.shape) ∧
      (∀ i : Nat, (a.getD i default).2.dtype ≠ (d.getD i default).2.dtype →
        isImageKey (d.getD i default).1 = true) := by
  refine ⟨normalize_dataset d, ?_, ?_, normalize_dataset_shapes d, ?_⟩
  · rw [nfm_uploaded, hin, hld, hsv, hup]
    simp
  · rw [normalize_dataset_keys]
    exact hkeys
  · intro i hne
    by_contra hio
    have hio2 : isImageKey (d.getD i default).1 = false := by
      simpa using hio
    exact hne (by rw [normalize_getD_of_label d i hio2])

theorem C2_full_run_archive_witness :
    (sampleEnv.input = some sampleDataset ∧
     sampleDataset.map Prod.fst = ["X_train", "y_train", "X_test", "y_test"]) ∧
    (∃ a : Dataset,
      (normalized_remote_file "gs://b/custom_jobs/fashion_mnist.npz"
          "gs://b/custom_jobs_normalized/", Blob.archive a)
        ∈ (normalize_fashion_mnist sampleEnv "gs://b/custom_jobs/fashion_mnist.npz"
            "gs://b/custom_jobs_normalized/").uploaded ∧
      a.map Prod.fst = ["X_train", "y_train", "X_test", "y_test"] ∧
      a.map (fun kv => kv.2.shape) = sampleDataset.map (fun kv => kv.2.shape) ∧
      (∀ i : Nat,
        (a.getD i default).2.dtype ≠ (sampleDataset.getD i default).2.dtype →
        isImageKey (sampleDataset.getD i default).1 = true)) :=
  ⟨⟨rfl, rfl⟩,
   C2_full_run_archive sampleEnv "gs://b/custom_jobs/fashion_mnist.npz"
     "gs://b/custom_jobs_normalized/" sampleDataset rfl rfl rfl rfl rfl⟩

/-- Serialization of the pipeline result record, with the key names of
the result JSON recorded in the repository (run output of run.py). -/
def serialize_result (r : PipelineResult) : List (String × String) :=
  [("status", r.status), ("input_path", r.input_path), ("output_path", r.output_path),
   ("normalized_file", r.normalized_file), ("timestamp", r.timestamp)]

/-- Modelled from the spec: the HTTP adapter returns 200 on success and
a non-2xx code on failure. -/
def http_status (r : PipelineResult) : Nat :=
  if r.status = "success" then 200 else 500

/-- C8 counterexample: the result record produced by a pipeline run has
no field named normalized_file_path — the recorded result JSON names
that field normalized_file. -/
theorem C8_counterexample :
    "normalized_file_path"
      ∉ ((serialize_result
          (normalize_fashion_mnist sampleEnv "gs://b/custom_jobs/fashion_mnist.npz"
            "gs://b/custom_jobs_normalized/").result).map Prod.fst) := by
  decide

/-- C8 (amended): every pipeline result serializes to a body with
exactly the keys status, input_path, output_path, normalized_file and
timestamp, in that order; the HTTP status code is 200 on success and
outside the 2xx range on failure. -/
theorem C8_result_serialization (r : PipelineResult) :
    (serialize_result r).map Prod.fst
      = ["status", "input_path", "output_path", "normalized_file", "timestamp"] ∧
    (r.status = "success" → http_status r = 200) ∧
    (r.status ≠ "success" → ¬(200 ≤ http_status r ∧ http_status r ≤ 299)) := by
  refine ⟨rfl, ?_, ?_⟩
  · intro h
    simp [http_status, h]
  · intro h
    simp only [http_status, if_neg h]
    omega

theorem C8_result_serialization_witness :
    (serialize_result
        (normalize_fashion_mnist sampleEnv "gs://b/custom_jobs/fashion_mnist.npz"
          "gs://b/custom_jobs_normalized/").result).map Prod.fst
      = ["status", "input_path", "output_path", "normalized_file", "timestamp"] ∧
    http_status (normalize_fashion_mnist sampleEnv "gs://b/custom_jobs/fashion_mnist.npz"
        "gs://b/custom_jobs_normalized/").result = 200 := by
  have h := C8_result_serialization
    (normalize_fashion_mnist sampleEnv "gs://b/custom_jobs/fashion_mnist.npz"
      "gs://b/custom_jobs_normalized/").result
  exact ⟨h.1, h.2.1 (by decide)⟩

/-- Decimal digits of a natural number, little-endian, computed with
explicit fuel so that evaluation is structural; fuel n suffices for n. -/
def decDigitsAux : Nat → Nat → List Nat
  | _, 0 => []
  | 0, _ + 1 => []
  | fuel + 1, n + 1 => ((n + 1) % 10) :: decDigitsAux fuel ((n + 1) / 10)

/-- Decimal digits of a natural number, little-endian. -/
def decDigits (n : Nat) : List Nat := decDigitsAux n n

theorem decDigitsAux_eq (fuel n : Nat) (h : n ≤ fuel) :
    decDigitsAux fuel n = Nat.digits 10 n := by
  induction fuel generalizing n with
  | zero =>
      have hn : n = 0 := Nat.le_zero.mp h
      rw [hn]
      simp [decDigitsAux]
  | succ f ih =>
      cases n with
      | zero => simp [decDigitsAux]
      | succ m =>
          have hdiv : (m + 1) / 10 ≤ f := by
            have hlt : (m + 1) / 10 < m + 1 := Nat.div_lt_self (Nat.succ_pos m) (by norm_num)
            omega
          rw [decDigitsAux, ih ((m + 1) / 10) hdiv,
            ← Nat.digits_def' (by norm_num : (1 : Nat) < 10) (Nat.succ_pos m)]

theorem decDigits_eq (n : Nat) : decDigits n = Nat.digits 10 n :=
  decDigitsAux_eq n n le_rfl

/-- The big-endian decimal digit characters of a natural number. -/
def bdigits (n : Nat) : List Char := ((decDigits n).map Nat.digitChar).reverse

/-- The character list of the zero-padded five-wide decimal rendering of
an index, mirroring the Python format used in the ingest notebook. -/
def fmt05Chars (n : Nat) : List Char :=
  List.replicate (5 - (bdigits n).length) '0' ++ bdigits n

/-- The zero-padded five-wide decimal rendering of an index. -/
def fmt05 (n : Nat) : String := String.mk (fmt05Chars n)

theorem dropWhile_zeros_replicate (k : Nat) (l : List Char) :
    List.dropWhile (fun c => c == '0') (List.replicate k '0' ++ l)
      = List.dropWhile (fun c => c == '0') l := by
  induction k with
  | zero => rfl
  | succ m ih => simp [List.replicate_succ, List.dropWhile_cons, ih]

theorem bdigits_head (n : Nat) (hn : n ≠ 0) :
    ∃ c cs, bdigits n = c :: cs ∧ (c == '0') = false := by
  have hd : decDigits n = Nat.digits 10 n := decDigits_eq n
  have hne : Nat.digits 10 n ≠ [] := Nat.digits_ne_nil_iff_ne_zero.mpr hn
  obtain ⟨l, x, hlx⟩ : ∃ l x, Nat.digits 10 n = l ++ [x] :=
    ⟨(Nat.digits 10 n).dropLast, (Nat.digits 10 n).getLast hne,
     (List.dropLast_append_getLast hne).symm⟩
  have hx10 : x < 10 := Nat.digits_lt_base (by norm_num) (by rw [hlx]; simp)
  have hx0 : x ≠ 0 := by
    have hgl := Nat.getLast_digit_ne_zero 10 hn
    have hglx : (Nat.digits 10 n).getLast hne = x := by
      simp [hlx, List.getLast_append]
    rwa [hglx] at hgl
  refine ⟨Nat.digitChar x, (l.map Nat.digitChar).reverse, ?_, ?_⟩
  · unfold bdigits
    rw [hd, hlx]
    simp
  · have hall : ∀ y, y < 10 → y ≠ 0 → (Nat.digitChar y == '0') = false := by decide
    exact hall x hx10 hx0

theorem dropWhile_zeros_bdigits (n : Nat) (hn : n ≠ 0) :
    List.dropWhile (fun c => c == '0') (bdigits n) = bdigits n := by
  obtain ⟨c, cs, hcs, hbeq⟩ := bdigits_head n hn
  rw [hcs, List.dropWhile_cons, hbeq]
  simp

theorem map_digitChar_cancel (l1 l2 : List Nat) (h1 : ∀ d ∈ l1, d < 10)
    (h2 : ∀ d ∈ l2, d < 10)
    (h : l1.map Nat.digitChar = l2.map Nat.digitChar) : l1 = l2 := by
  induction l1 generalizing l2 with
  | nil =>
      cases l2 with
      | nil => rfl
      | cons b s => simp at h
  | cons a t ih =>
      cases l2 with
      | nil => simp at h
      | cons b s =>
          simp only [List.map_cons, List.cons.injEq] at h
          have hkey : ∀ x, x < 10 → ∀ y, y < 10 → Nat.digitChar x = Nat.digitChar y → x = y := by
            decide
          have hab : a = b := hkey a (h1 a (by simp)) b (h2 b (by simp)) h.1
          rw [hab, ih s (fun d hd2 => h1 d (by simp [hd2]))
            (fun d hd2 => h2 d (by simp [hd2])) h.2]

theorem fmt05_inj (m n : Nat) (h : fmt05 m = fmt05 n) : m = n := by
  have hd : fmt05Chars m = fmt05Chars n := congrArg String.data h
  have hdw := congrArg (List.dropWhile (fun c => c == '0')) hd
  simp only [fmt05Chars] at hdw
  rw [dropWhile_zeros_replicate, dropWhile_zeros_replicate] at hdw
  by_cases hm : m = 0 <;> by_cases hn : n = 0
  · rw [hm, hn]
  · exfalso
    rw [hm] at hdw
    rw [dropWhile_zeros_bdigits n hn] at hdw
    obtain ⟨c, cs, hcs, _⟩ := bdigits_head n hn
    rw [hcs] at hdw
    simp [bdigits, decDigits, decDigitsAux] at hdw
  · exfalso
    rw [hn] at hdw
    rw [dropWhile_zeros_bdigits m hm] at hdw
    obtain ⟨c, cs, hcs, _⟩ := bdigits_head m hm
    rw [hcs] at hdw
    simp [bdigits, decDigits, decDigitsAux] at hdw
  · rw [dropWhile_zeros_bdigits m hm, dropWhile_zeros_bdigits n hn] at hdw
    unfold bdigits at hdw
    have hmap : (decDigits m).map Nat.digitChar = (decDigits n).map Nat.digitChar :=
      List.reverse_injective hdw
    rw [decDigits_eq, decDigits_eq] at hmap
    have hdig := map_digitChar_cancel _ _
      (fun d hd2 => Nat.digits_lt_base (by norm_num) hd2)
      (fun d hd2 => Nat.digits_lt_base (by norm_num) hd2) hmap
    exact Nat.digits.injective 10 hdig

/-- The class names defined in the ingest notebook. -/
def class_names : List String :=
  ["T-shirt_top", "Trouser", "Pullover", "Dress", "Coat",
   "Sandal", "Shirt", "Sneaker", "Bag", "Ankle_boot"]

/-- An in-memory image: a grid of uint8 pixels.  Only the position of an
image in the input sequence, never its pixel contents, affects the
manifest rows built below. -/
abbrev RawImage := List (List Nat)

/-- The filename given to the idx-th image of a split in the ingest
notebook. -/
def image_filename (split : String) (idx : Nat) : String :=
  split ++ "_" ++ fmt05 idx ++ ".jpg"

/-- The local path under which the idx-th image is saved as a JPEG. -/
def local_image_path (split class_name filename : String) : String :=
  "./fashion_mnist_data/vertex_datasets/" ++ split ++ "/" ++ class_name ++ "/" ++ filename

/-- The GCS path recorded in the CSV manifest. -/
def gcs_image_path (split class_name filename : String) : String :=
  "gs://fashion-mnist-datasets/vertex_datasets/" ++ split ++ "/" ++ class_name ++ "/" ++ filename

/-- A row of the Vertex AI import manifest: a GCS path and a label. -/
structure CsvRow where
  gcs_path : String
  label : String
deriving DecidableEq, Repr, Inhabited

/-- Embedded from the ingest notebook: create_vertex_dataset_format
builds one manifest row per (image, label) pair, in input order, with
the GCS path of the saved JPEG and the class name as the label. -/
def create_vertex_dataset_format (images : List RawImage) (labels : List Nat)
    (split : String) : List CsvRow :=
  (List.zip images labels).enum.map (fun p =>
    { gcs_path := gcs_image_path split (class_names.getD p.2.2 "") (image_filename split p.1),
      label := class_names.getD p.2.2 "" })

/-- Embedded from the ingest notebook: the local JPEG files written by
create_vertex_dataset_format, one per (image, label) pair. -/
def local_files (images : List RawImage) (labels : List Nat) (split : String) : List String :=
  (List.zip images labels).enum.map (fun p =>
    local_image_path split (class_names.getD p.2.2 "") (image_filename split p.1))

/-- Embedded from the ingest notebook: rows are written to CSV without a
header line, one line per row, path then label. -/
def write_csv (rows : List CsvRow) : List String :=
  rows.map (fun r => r.gcs_path ++ "," ++ r.label)

/-- Embedded from the ingest notebook: the combined manifest is the
train rows followed by the test rows. -/
def combined_rows (train_rows test_rows : List CsvRow) : List CsvRow :=
  train_rows ++ test_rows

theorem cvdf_getD (images : List RawImage) (labels : List Nat) (split : String)
    (i : Nat) (hi : i < images.length) (hlen : images.length = labels.length) :
    (create_vertex_dataset_format images labels split).getD i default
      = { gcs_path := gcs_image_path split (class_names.getD (labels.getD i 0) "")
            (image_filename split i),
          label := class_names.getD (labels.getD i 0) "" } := by
  have hil : i < labels.length := hlen ▸ hi
  obtain ⟨img, himg⟩ : ∃ img, images[i]? = some img := ⟨_, List.getElem?_eq_getElem hi⟩
  obtain ⟨lab, hlab2⟩ : ∃ lab, labels[i]? = some lab := ⟨_, List.getElem?_eq_getElem hil⟩
  have hlabD : labels.getD i 0 = lab := by
    simp [List.getD_eq_getElem?_getD, hlab2]
  have hz : (List.zip images labels)[i]? = some (img, lab) := by
    rw [List.getElem?_zip_eq_some]
    exact ⟨himg, hlab2⟩
  have he : (List.zip images labels).enum[i]? = some (i, (img, lab)) := by
    rw [List.getElem?_enum, hz]
    rfl
  rw [create_vertex_dataset_format, List.getD_eq_getElem?_getD, List.getElem?_map, he, hlabD]
  rfl

theorem local_files_getD (images : List RawImage) (labels : List Nat) (split : String)
    (i : Nat) (hi : i < images.length) (hlen : images.length = labels.length) :
    (local_files images labels split).getD i ""
      = local_image_path split (class_names.getD (labels.getD i 0) "")
          (image_filename split i) := by
  have hil : i < labels.length := hlen ▸ hi
  obtain ⟨img, himg⟩ : ∃ img, images[i]? = some img := ⟨_, List.getElem?_eq_getElem hi⟩
  obtain ⟨lab, hlab2⟩ : ∃ lab, labels[i]? = some lab := ⟨_, List.getElem?_eq_getElem hil⟩
  have hlabD : labels.getD i 0 = lab := by
    simp [List.getD_eq_getElem?_getD, hlab2]
  have hz : (List.zip images labels)[i]? = some (img, lab) := by
    rw [List.getElem?_zip_eq_some]
    exact ⟨himg, hlab2⟩
  have he : (List.zip images labels).enum[i]? = some (i, (img, lab)) := by
    rw [List.getElem?_enum, hz]
    rfl
  rw [local_files, List.getD_eq_getElem?_getD, List.getElem?_map, he, hlabD]
  rfl

theorem mem_fmt05Chars (c : Char) (idx : Nat) (hc : c ∈ fmt05Chars idx) :
    c = '0' ∨ ∃ d, d < 10 ∧ c = Nat.digitChar d := by
  simp only [fmt05Chars, List.mem_append, List.mem_replicate] at hc
  rcases hc with ⟨_, rfl⟩ | hc
  · left
    rfl
  · right
    unfold bdigits at hc
    rw [List.mem_reverse, List.mem_map] at hc
    obtain ⟨d, hd, rfl⟩ := hc
    rw [decDigits_eq] at hd
    exact ⟨d, Nat.digits_lt_base (by norm_num) hd, rfl⟩

theorem slash_not_in_filename (split : String) (hs : '/' ∉ split.data) (idx : Nat) :
    '/' ∉ (image_filename split idx).data := by
  intro hmem
  have hu : ("_" : String).data = ['_'] := rfl
  have hj : (".jpg" : String).data = ['.', 'j', 'p', 'g'] := rfl
  have hf : (fmt05 idx).data = fmt05Chars idx := rfl
  simp only [image_filename, String.data_append, hu, hj, hf, List.mem_append,
    List.mem_cons, List.mem_singleton, List.not_mem_nil, or_false] at hmem
  rcases hmem with ((hmem | hmem) | hmem) | hmem
  · exact hs hmem
  · exact absurd hmem (by decide)
  · rcases mem_fmt05Chars '/' idx hmem with h0 | ⟨d, hd10, hdc⟩
    · exact absurd h0 (by decide)
    · have : ∀ y, y < 10 → Nat.digitChar y ≠ '/' := by decide
      exact this d hd10 hdc.symm
  · rcases hmem with h | h | h | h <;> exact absurd h (by decide)

theorem local_path_inj (split : String) (hsplit : '/' ∉ split.data)
    (cn1 cn2 : String) (i j : Nat) (hij : i ≠ j) :
    local_image_path split cn1 (image_filename split i)
      ≠ local_image_path split cn2 (image_filename split j) := by
  intro heq
  have hmk : ("/" : String) = String.mk ['/'] := rfl
  have h1 : splitLast '/' (local_image_path split cn1 (image_filename split i))
      = some ("./fashion_mnist_data/vertex_datasets/" ++ split ++ "/" ++ cn1,
              image_filename split i) := by
    rw [local_image_path]
    conv in _ ++ _ ++ _ ++ _ ++ "/" ++ _ => rw [hmk]
    exact splitLast_append '/' _ _ (slash_not_in_filename split hsplit i)
  have h2 : splitLast '/' (local_image_path split cn2 (image_filename split j))
      = some ("./fashion_mnist_data/vertex_datasets/" ++ split ++ "/" ++ cn2,
              image_filename split j) := by
    rw [local_image_path]
    conv in _ ++ _ ++ _ ++ _ ++ "/" ++ _ => rw [hmk]
    exact splitLast_append '/' _ _ (slash_not_in_filename split hsplit j)
  have hsl := congrArg (splitLast '/') heq
  rw [h1, h2] at hsl
  have hfn : image_filename split i = image_filename split j := by
    have := congrArg (fun o => Option.map Prod.snd o) hsl
    simpa using this
  have hfd := congrArg String.data hfn
  simp only [image_filename, String.data_append] at hfd
  have hfmt : (fmt05 i).data = (fmt05 j).data := by
    have hcr := List.append_cancel_right hfd
    exact List.append_cancel_left hcr
  exact hij (fmt05_inj i j (String.ext hfmt))

/-- C10: for equal-length sequences of images and labels in [0,9],
create_vertex_dataset_format returns one row per image, row i pairing
the GCS path of the saved JPEG of image i (inside the folder of the
class of label i, named by the split and the zero-padded index) with the
class name of label i; the local JPEG paths are pairwise distinct; the
combined manifest is the train rows followed by the test rows; and CSVs
are written without a header line, one line per row. -/
theorem C10_vertex_dataset_format (images : List RawImage) (labels : List Nat)
    (split : String) (hlen : images.length = labels.length)
    (hlab : ∀ l ∈ labels, l < 10) (hsplit : '/' ∉ split.data) :
    (create_vertex_dataset_format images labels split).length = images.length ∧
    (∀ i, i < images.length →
      (create_vertex_dataset_format images labels split).getD i default
        = { gcs_path := gcs_image_path split (class_names.getD (labels.getD i 0) "")
              (image_filename split i),
            label := class_names.getD (labels.getD i 0) "" }) ∧
    (∀ i j, i < images.length → j < images.length → i ≠ j →
      (local_files images labels split).getD i ""
        ≠ (local_files images labels split).getD j "") ∧
    (∀ tr te : List CsvRow,
      write_csv (combined_rows tr te) = write_csv tr ++ write_csv te) ∧
    (∀ rows : List CsvRow, (write_csv rows).length = rows.length) := by
  refine ⟨?_, ?_, ?_, ?_, ?_⟩
  · simp [create_vertex_dataset_format, List.length_zip, hlen]
  · intro i hi
    exact cvdf_getD images labels split i hi hlen
  · intro i j hi hj hij
    rw [local_files_getD images labels split i hi hlen,
        local_files_getD images labels split j hj hlen]
    exact local_path_inj split hsplit _ _ i j hij
  · intro tr te
    simp [write_csv, combined_rows]
  · intro rows
    simp [write_csv]

theorem C10_vertex_dataset_format_witness :
    (([[[0, 128], [255, 7]], [[1, 2], [3, 4]]] : List RawImage).length
        = ([9, 0] : List Nat).length ∧
     (∀ l ∈ ([9, 0] : List Nat), l < 10) ∧ '/' ∉ ("train" : String).data) ∧
    ((create_vertex_dataset_format [[[0, 128], [255, 7]], [[1, 2], [3, 4]]] [9, 0]
        "train").getD 0 default
      = { gcs_path := gcs_image_path "train" "Ankle_boot" (image_filename "train" 0),
          label := "Ankle_boot" } ∧
     (local_files [[[0, 128], [255, 7]], [[1, 2], [3, 4]]] [9, 0] "train").getD 0 ""
        ≠ (local_files [[[0, 128], [255, 7]], [[1, 2], [3, 4]]] [9, 0] "train").getD 1 "") := by
  have h := C10_vertex_dataset_format [[[0, 128], [255, 7]], [[1, 2], [3, 4]]] [9, 0] "train"
    rfl (by decide) (by decide)
  refine ⟨⟨rfl, by decide, by decide⟩, ?_, ?_⟩
  · have h0 := h.2.1 0 (by decide)
    rw [h0]
    rfl
  · exact h.2.2.1 0 1 (by decide) (by decide) (by decide)

end FashionMNIST
